import Mathlib

/-!
Shallow embedding of the ubt-server session coordinator
(src/unnamed/part_000, the current server; src/main.go is an earlier
variant of the same program).  Go machine integers are modelled as Nat
(all enum values are tiny and no arithmetic overflows), the player map
as an association list with Go map insert-or-overwrite semantics, and
the per-player buffered channel (capacity 16) as a bounded list queue.
-/

namespace UbtServer

/-- Character enum: 0 is the zero value (unset), Max = 1, Drax = 2. -/
abbrev Character := Nat

def Max : Character := 1

def Drax : Character := 2

/-- Protocol state tags (Go: iota + 1). -/
abbrev State := Nat

def stateSelect : State := 1

def stateWaitPlayers : State := 2

def stateSync : State := 3

def statePlay : State := 4

/-- Status codes (Go: iota + 1). -/
abbrev StatusCode := Nat

def ESuccess : StatusCode := 1

def ETooManyPlayers : StatusCode := 2

def ESelect : StatusCode := 3

def ENotReady : StatusCode := 4

def EInternal : StatusCode := 5

/-- Character.String() from the source. -/
def characterString (c : Character) : String :=
  if c = Max then "max"
  else if c = Drax then "drax"
  else "<unknown>"

/-- Player record: name, chosen character (0 until selected), host flag
(Left), the buffered key channel (capacity 16) and the FSM state tag. -/
structure Player where
  name : String
  character : Character := 0
  left : Bool := false
  keys : List String := []
  state : State := 0
  deriving Repr, DecidableEq

/-- statusMessage wire shape. -/
structure statusMessage where
  status : String
  code : StatusCode
  deriving Repr, DecidableEq

/-- connectMessage wire shape (connect response). -/
structure connectMessage where
  status : String
  code : StatusCode
  left : Bool
  deriving Repr, DecidableEq

/-- The GameState.players map, as an association list with unique keys. -/
abbrev Room := List (String × Player)

/-- Go map assignment: overwrite the entry with this key, else append. -/
def mapInsert : Room → String → Player → Room
  | [], k, v => [(k, v)]
  | (k1, v1) :: rest, k, v =>
    if k1 = k then (k, v) :: rest else (k1, v1) :: mapInsert rest k v

/-- In-place mutation of the record stored at a key (Go pointer write). -/
def mapUpdate : Room → String → (Player → Player) → Room
  | [], _, _ => []
  | (k1, v1) :: rest, k, f =>
    if k1 = k then (k1, f v1) :: rest else (k1, v1) :: mapUpdate rest k f

/-- Go map read with ok flag: game.players[k]. -/
def mapLookup : Room → String → Option Player
  | [], _ => none
  | (k1, v1) :: rest, k => if k1 = k then some v1 else mapLookup rest k

/-- getPlayerCharSelect, after a successful read and unmarshal: the
character-string validation logic. -/
def getPlayerCharSelect (character : String) : Except String Character :=
  if character = "" then Except.error "Empty character name"
  else if character = "drax" then Except.ok Drax
  else if character = "max" then Except.ok Max
  else Except.error "invalid character choice"

/-- The ack sent by sendSuccess. -/
def successMsg : statusMessage :=
  { status := "connection successfully", code := ESuccess }

/-- One iteration of runFSM in stateSelect, given the character string of
the parsed selection message: returns the mutated player and the list of
messages written to the client, in order.  Mirrors the source exactly:
after the error branch there is no continue, so player.Character is
assigned the zero value, sendSuccess runs, and the state advances to
stateWaitPlayers even on a selection error. -/
def selectStep (p : Player) (character : String) : Player × List statusMessage :=
  match getPlayerCharSelect character with
  | Except.error e =>
      ({ p with character := 0, state := stateWaitPlayers },
       [{ status := e, code := ESelect }, successMsg])
  | Except.ok c =>
      ({ p with character := c, state := stateWaitPlayers },
       [successMsg])

/-- The first framed message of a connection, after the read/unmarshal
attempt.  The same bytes are decoded as a Player object (field name) on
the admission path and as a getInfoMessage (field player) on the
full-room path, so both projections are carried.  readOk and jsonOk
record whether conn.Read and json.Unmarshal succeeded. -/
structure rawMsg where
  readOk : Bool := true
  jsonOk : Bool := true
  name : String := ""
  player : String := ""
  character : Character := 0
  deriving Repr, DecidableEq

/-- What handleRequest does with a connection after its first message. -/
inductive ConnOutcome where
  /-- An error path: log to stderr and return; the deferred conn.Close
  runs with no message ever written to the client. -/
  | closedNoMessage
  /-- Full-room path with a recognized identity: runFSM starts in
  remote (forwarding) mode, relaying the other occupant's keys. -/
  | relay (boundTo : String) (other : Option Player)
  /-- Admission path: the connect response was sent and runFSM starts
  in local mode. -/
  | admitted (resp : connectMessage)
  deriving Repr, DecidableEq

/-- Fresh record built from the decoded connect message: getPlayer
allocates the capacity-16 key channel and handleRequest sets
state = stateSelect before inserting. -/
def newPlayer (name : String) (character : Character) : Player :=
  { name := name, character := character, left := false,
    keys := [], state := stateSelect }

/-- The admission path of handleRequest: insert the record, then set
Left from the occupancy after insertion (len == 1 means first slot),
and build the connect response carrying that flag.  The Left write goes
through the map entry because the map stores a pointer to the record. -/
def admitPlayer (room : Room) (name : String) (character : Character) :
    Room × connectMessage :=
  let room1 := mapInsert room name (newPlayer name character)
  let left := room1.length == 1
  let room2 := mapUpdate room1 name (fun p => { p with left := left })
  (room2, { status := "Connected successfully", code := ESuccess, left := left })

/-- The range-loop in the source that picks the occupant other than the
given one: the last entry whose key differs from selfName wins. -/
def findOther (room : Room) (selfName : String) : Option Player :=
  room.foldl (fun acc kv => if kv.1 = selfName then acc else some kv.2) none

/-- handleRequest on one connection: the room-occupancy branch, the
getInfo/lookup relay path when the room is full, and the admission path
otherwise.  Returns the room after the step and the connection outcome. -/
def handleRequest (room : Room) (m : rawMsg) : Room × ConnOutcome :=
  if room.length = 2 then
    if m.readOk = false then (room, ConnOutcome.closedNoMessage)
    else if m.jsonOk = false then (room, ConnOutcome.closedNoMessage)
    else
      match mapLookup room m.player with
      | none => (room, ConnOutcome.closedNoMessage)
      | some _ => (room, ConnOutcome.relay m.player (findOther room m.player))
  else
    if m.readOk = false then (room, ConnOutcome.closedNoMessage)
    else if m.jsonOk = false then (room, ConnOutcome.closedNoMessage)
    else
      let r := admitPlayer room m.name m.character
      (r.1, ConnOutcome.admitted r.2)

/-- The status messages written to the client during the connect phase,
per outcome.  The admitted path sends only the connect response; both
error exits and the relay hand-off send nothing. -/
def connectPhaseSends : ConnOutcome → List statusMessage
  | ConnOutcome.closedNoMessage => []
  | ConnOutcome.relay _ _ => []
  | ConnOutcome.admitted r => [{ status := r.status, code := r.code }]

/-- Responses a stateWaitPlayers iteration writes to the client. -/
inductive WaitResponse where
  | internalError
  | notReady
  | opponent (player : String) (character : String) (code : StatusCode)
  deriving Repr, DecidableEq

/-- One iteration of runFSM in stateWaitPlayers: read the sync probe
(readOk), then under the lock check occupancy, locate the other
occupant and check its character; answer notReady or the opponent info.
sendOk records whether the sendSelectedPlayer write succeeded: on
failure the source continues without the state transition.  The none
branch of findOther cannot arise for a 2-entry room (in Go it would be
a nil dereference). -/
def waitStep (room : Room) (p : Player) (readOk sendOk : Bool) :
    Player × WaitResponse :=
  if readOk = false then (p, WaitResponse.internalError)
  else if room.length < 2 then (p, WaitResponse.notReady)
  else
    match findOther room p.name with
    | none => (p, WaitResponse.internalError)
    | some other =>
      if other.character = 0 then (p, WaitResponse.notReady)
      else
        let resp := WaitResponse.opponent other.name
          (characterString other.character) ESuccess
        if sendOk then ({ p with state := statePlay }, resp) else (p, resp)

/-- Capacity of the Player.Keys buffered channel. -/
def chanCap : Nat := 16

/-- Outcome of a Go buffered-channel send. -/
inductive PushResult where
  /-- The send completed immediately and the buffer now holds the queue. -/
  | pushed (queue : List String)
  /-- The buffer was full: the sending goroutine suspends until a
  receiver frees a slot.  No token is dropped or rejected. -/
  | blocked
  deriving Repr, DecidableEq

/-- player.Keys <- key: completes at once iff the buffer has room. -/
def chanSend (queue : List String) (key : String) : PushResult :=
  if queue.length < chanCap then PushResult.pushed (queue ++ [key])
  else PushResult.blocked

/-- What one forwarding-mode iteration writes and how long it pauses. -/
structure RelayOut where
  key : String
  delayMs : Nat
  deriving Repr, DecidableEq

/-- One iteration of runFSM in statePlay, remote mode: the select
statement receives from the opponent's channel when a token is buffered
(no delay), otherwise takes the default branch, sending the empty key
and sleeping 500 ms. -/
def remotePlayStep : List String → RelayOut × List String
  | key :: rest => ({ key := key, delayMs := 0 }, rest)
  | [] => ({ key := "", delayMs := 500 }, [])

/-- Push a list of tokens in order through chanSend; none if any send
would block. -/
def pushAll (q : List String) : List String → Option (List String)
  | [] => some q
  | k :: ks =>
    match chanSend q k with
    | PushResult.pushed q1 => pushAll q1 ks
    | PushResult.blocked => none

/-- Keys produced by n consecutive forwarding iterations. -/
def drain : List String → Nat → List String
  | _, 0 => []
  | q, n + 1 =>
    let r := remotePlayStep q
    r.1.key :: drain r.2 n

/-- sendOtherPlayerKey: the exact bytes written for a key. -/
def sendOtherPlayerKey (key : String) : String :=
  "\x7b\"key\": \"" ++ key ++ "\"\x7d\n"

/-- getPlayerKey after a successful read and unmarshal into a
map of strings: a Go map read returns the zero value (the empty string)
when the key field is absent, and err is nil either way. -/
def getPlayerKey (info : List (String × String)) : String :=
  match info.lookup "key" with
  | some v => v
  | none => ""

/-- Primitive events for the lock-discipline analysis of the source:
mutex acquire/release, socket reads/writes, and accesses to the shared
player map. -/
inductive Ev where
  | lock
  | unlock
  | sockRead
  | sockWrite
  | mapOp
  deriving Repr, DecidableEq

/-- Is some socket read or write performed while the lock is held,
starting from lock depth d? -/
def ioUnderLockAux : Nat → List Ev → Bool
  | _, [] => false
  | d, Ev.lock :: rest => ioUnderLockAux (d + 1) rest
  | d, Ev.unlock :: rest => ioUnderLockAux (d - 1) rest
  | d, Ev.sockRead :: rest => decide (0 < d) || ioUnderLockAux d rest
  | d, Ev.sockWrite :: rest => decide (0 < d) || ioUnderLockAux d rest
  | d, Ev.mapOp :: rest => ioUnderLockAux d rest

def ioUnderLock (tr : List Ev) : Bool := ioUnderLockAux 0 tr

/-- Lock depth after running a trace. -/
def lockDepthAfter (tr : List Ev) : Nat :=
  tr.foldl
    (fun d e =>
      match e with
      | Ev.lock => d + 1
      | Ev.unlock => d - 1
      | _ => d)
    0

/-- handleRequest admission path, success: Lock; len check; getPlayer
(socket read); map insert; len check for Left; sendConnectSuccess
(socket write); Unlock. -/
def admitTrace : List Ev :=
  [Ev.lock, Ev.mapOp, Ev.sockRead, Ev.mapOp, Ev.mapOp, Ev.sockWrite, Ev.unlock]

/-- handleRequest admission path when getPlayer fails: Lock; len check;
socket read errors; return without Unlock. -/
def admitFailTrace : List Ev :=
  [Ev.lock, Ev.mapOp, Ev.sockRead]

/-- handleRequest full-room path, success: Lock; len check; Unlock;
read the getInfo message; lookup (outside the lock); Lock; range loop;
Unlock. -/
def fullRoomTrace : List Ev :=
  [Ev.lock, Ev.mapOp, Ev.unlock, Ev.sockRead, Ev.mapOp,
   Ev.lock, Ev.mapOp, Ev.unlock]

/-- stateWaitPlayers, not-ready poll: read probe; Lock; len check;
Unlock; sendNotReady. -/
def waitNotReadyTrace : List Ev :=
  [Ev.sockRead, Ev.lock, Ev.mapOp, Ev.unlock, Ev.sockWrite]

/-- stateWaitPlayers, ready poll: read probe; Lock; len check; range
loop; character check; sendSelectedPlayer (socket write); Unlock. -/
def waitReadyTrace : List Ev :=
  [Ev.sockRead, Ev.lock, Ev.mapOp, Ev.mapOp, Ev.mapOp,
   Ev.sockWrite, Ev.unlock]

/-- Demo occupants used by the closed witnesses and counterexamples. -/
def alicePlayer : Player :=
  { name := "alice", character := Max, left := true,
    keys := [], state := stateWaitPlayers }

def bobPlayer : Player :=
  { name := "bob", character := Drax, left := false,
    keys := [], state := stateWaitPlayers }

def bobUnselected : Player :=
  { name := "bob", character := 0, left := false,
    keys := [], state := stateSelect }

/-- A full room holding alice and bob. -/
def demoRoom2 : Room := [("alice", alicePlayer), ("bob", bobPlayer)]

/-! Helper lemmas. -/

theorem mapInsert_length (room : Room) (k : String) (v : Player) :
    (mapInsert room k v).length ≤ room.length + 1 := by
  induction room with
  | nil => simp [mapInsert]
  | cons kv rest ih =>
    obtain ⟨k1, v1⟩ := kv
    by_cases hk : k1 = k
    · simp [mapInsert, hk]
    · simp only [mapInsert, hk, if_false, List.length_cons]
      omega

theorem mapUpdate_length (room : Room) (k : String) (f : Player → Player) :
    (mapUpdate room k f).length = room.length := by
  induction room with
  | nil => rfl
  | cons kv rest ih =>
    obtain ⟨k1, v1⟩ := kv
    by_cases hk : k1 = k <;> simp [mapUpdate, hk, ih]

theorem pushAll_bounded (ks : List String) :
    ∀ q : List String, q.length + ks.length ≤ chanCap →
      pushAll q ks = some (q ++ ks) := by
  induction ks with
  | nil => intro q _; simp [pushAll]
  | cons k ks ih =>
    intro q h
    have hlt : q.length < chanCap := by
      simp only [List.length_cons] at h; omega
    have hsend : chanSend q k = PushResult.pushed (q ++ [k]) := by
      unfold chanSend; rw [if_pos hlt]
    have hrec : pushAll (q ++ [k]) ks = some ((q ++ [k]) ++ ks) := by
      apply ih
      simp only [List.length_append, List.length_cons,
        List.length_nil] at h ⊢
      omega
    simp [pushAll, hsend, hrec, List.append_assoc]

theorem drain_self (q : List String) : drain q q.length = q := by
  induction q with
  | nil => rfl
  | cons k rest ih => simp [drain, remotePlayStep, ih]

/-! Claim theorems. -/

/-- Claim C1 (code-bug evidence): in stateSelect an empty or
unrecognized character does produce an ESelect-coded response, but the
session does not remain in Selecting: because the error branch does not
continue the loop, the code assigns character 0, additionally sends the
success ack, and transitions to stateWaitPlayers — contradicting the
spec sentence that an invalid selection causes no state change.  A
valid name transitions with the character set, as specified. -/
theorem selectStepFallthrough :
    selectStep { name := "alice", state := stateSelect } "" =
      ({ name := "alice", character := 0, left := false, keys := [],
         state := stateWaitPlayers },
       [{ status := "Empty character name", code := ESelect }, successMsg]) ∧
    selectStep { name := "alice", state := stateSelect } "hulk" =
      ({ name := "alice", character := 0, left := false, keys := [],
         state := stateWaitPlayers },
       [{ status := "invalid character choice", code := ESelect }, successMsg]) ∧
    selectStep bobUnselected "max" =
      ({ bobUnselected with character := Max, state := stateWaitPlayers },
       [successMsg]) :=
  ⟨rfl, rfl, rfl⟩

/-- Claim C3 counterexample: a push onto a full 16-token queue does not
return with a token discarded — the channel send suspends the producing
session until the consumer frees a slot. -/
theorem chanSendFullBlocks :
    chanSend (List.replicate 16 "a") "b" = PushResult.blocked := rfl

/-- Claim C3 (amended): the play-loop push completes without blocking
exactly when the queue holds fewer than 16 tokens, appending the token;
on a full queue the send blocks the producing session (backpressure)
and no token is discarded. -/
theorem pushPolicy (q : List String) (k : String) :
    (q.length < chanCap → chanSend q k = PushResult.pushed (q ++ [k])) ∧
    (chanCap ≤ q.length → chanSend q k = PushResult.blocked) := by
  constructor
  · intro h; unfold chanSend; rw [if_pos h]
  · intro h; unfold chanSend; rw [if_neg (Nat.not_lt.mpr h)]

/-- Witness for pushPolicy at a short queue and at a full queue. -/
theorem pushPolicyWitness :
    ((["up"] : List String).length < chanCap ∧
      chanSend ["up"] "jump" = PushResult.pushed ["up", "jump"]) ∧
    (chanCap ≤ (List.replicate 16 "a").length ∧
      chanSend (List.replicate 16 "a") "b" = PushResult.blocked) :=
  ⟨⟨by decide, (pushPolicy ["up"] "jump").1 (by decide)⟩,
   ⟨by decide, (pushPolicy (List.replicate 16 "a") "b").2 (by decide)⟩⟩

/-- Claim C7: tokens pushed by the local session come out of the
forwarding session in the same order (FIFO), and a poll on an empty
queue never blocks: it sends the explicit empty key and pauses 500 ms. -/
theorem relayFIFO (ks : List String) (h : ks.length ≤ chanCap) :
    pushAll [] ks = some ks ∧
    drain ks ks.length = ks ∧
    remotePlayStep [] = ({ key := "", delayMs := 500 }, []) := by
  refine ⟨?_, drain_self ks, rfl⟩
  have hb := pushAll_bounded ks [] (by simpa using h)
  simpa using hb

/-- Witness for relayFIFO on the spec's example token sequence. -/
theorem relayFIFOWitness :
    (["up", "up", "jump"] : List String).length ≤ chanCap ∧
    (pushAll [] ["up", "up", "jump"] = some ["up", "up", "jump"] ∧
     drain ["up", "up", "jump"] 3 = ["up", "up", "jump"] ∧
     remotePlayStep [] = ({ key := "", delayMs := 500 }, [])) :=
  ⟨by decide, relayFIFO ["up", "up", "jump"] (by decide)⟩

/-- Claim C10: a key-submit object without a key field, or with an
empty one, makes getPlayerKey return the empty string with a nil error;
that empty string is accepted by the queue push and relayed by the
forwarding session as exactly the bytes of the server-generated
no-input sentinel, so the two are indistinguishable on the wire. -/
theorem emptyKeyIndistinguishable (info : List (String × String))
    (h : info.lookup "key" = none ∨ info.lookup "key" = some "") :
    getPlayerKey info = "" ∧
    chanSend [] (getPlayerKey info) = PushResult.pushed [""] ∧
    remotePlayStep [getPlayerKey info] = ({ key := "", delayMs := 0 }, []) ∧
    sendOtherPlayerKey (remotePlayStep [getPlayerKey info]).1.key =
      sendOtherPlayerKey (remotePlayStep []).1.key := by
  have hk : getPlayerKey info = "" := by
    rcases h with h | h <;> simp [getPlayerKey, h]
  refine ⟨hk, ?_, ?_, ?_⟩ <;> rw [hk] <;> rfl

/-- Witness for emptyKeyIndistinguishable on an object with no key
field. -/
theorem emptyKeyWitness :
    (([("action", "move")] : List (String × String)).lookup "key" = none ∨
     ([("action", "move")] : List (String × String)).lookup "key" = some "") ∧
    getPlayerKey [("action", "move")] = "" ∧
    sendOtherPlayerKey (remotePlayStep [getPlayerKey [("action", "move")]]).1.key =
      sendOtherPlayerKey (remotePlayStep []).1.key :=
  ⟨Or.inl (by decide),
   (emptyKeyIndistinguishable [("action", "move")] (Or.inl (by decide))).1,
   (emptyKeyIndistinguishable [("action", "move")] (Or.inl (by decide))).2.2.2⟩

theorem handleRequest_full_room (room : Room) (m : rawMsg)
    (h2 : room.length = 2) : (handleRequest room m).1 = room := by
  obtain ⟨ro, jo, nm, pl, ch⟩ := m
  unfold handleRequest
  rw [if_pos h2]
  cases ro <;> cases jo <;> try rfl
  cases hl : mapLookup room pl <;> simp [hl]

theorem admitPlayer_room_length (room : Room) (name : String) (c : Character) :
    ((admitPlayer room name c).1).length ≤ room.length + 1 := by
  simp only [admitPlayer]
  rw [mapUpdate_length]
  exact mapInsert_length room name (newPlayer name c)

theorem handleRequest_room_le (room : Room) (m : rawMsg)
    (h : room.length ≤ 2) : ((handleRequest room m).1).length ≤ 2 := by
  by_cases h2 : room.length = 2
  · rw [handleRequest_full_room room m h2]; exact h
  · have h1 : room.length ≤ 1 := by omega
    obtain ⟨ro, jo, nm, pl, ch⟩ := m
    unfold handleRequest
    rw [if_neg h2]
    cases ro <;> cases jo <;> try simpa using h
    have := admitPlayer_room_length room nm ch
    simpa using by omega

theorem foldRoom_le (msgs : List rawMsg) :
    ∀ room : Room, room.length ≤ 2 →
      ((msgs.foldl (fun r m => (handleRequest r m).1) room).length ≤ 2) := by
  induction msgs with
  | nil => intro room h; simpa using h
  | cons m ms ih =>
    intro room h
    simp only [List.foldl_cons]
    exact ih _ (handleRequest_room_le room m h)

/-- Claim C2: starting from the empty room, any sequence of connection
attempts leaves at most 2 records in the player map, and a step taken
while 2 records exist returns the map unchanged — the insertion path
runs only below occupancy 2, with the length check and the insert under
the same lock acquisition. -/
theorem roomCapacity (msgs : List rawMsg) :
    ((msgs.foldl (fun r m => (handleRequest r m).1) []).length ≤ 2) ∧
    (∀ room : Room, ∀ m : rawMsg, room.length = 2 →
       (handleRequest room m).1 = room) :=
  ⟨foldRoom_le msgs [] (by simp),
   fun room m h2 => handleRequest_full_room room m h2⟩

/-- Witness for roomCapacity on three distinct connection attempts and
on a step from the full demo room. -/
theorem roomCapacityWitness :
    ((([{ name := "alice" }, { name := "bob" }, { name := "carol" }] :
        List rawMsg).foldl (fun r m => (handleRequest r m).1) []).length ≤ 2) ∧
    demoRoom2.length = 2 ∧
    (handleRequest demoRoom2 { player := "carol" }).1 = demoRoom2 :=
  ⟨(roomCapacity [{ name := "alice" }, { name := "bob" },
      { name := "carol" }]).1,
   by decide,
   (roomCapacity []).2 demoRoom2 { player := "carol" } (by decide)⟩

/-- Claim C4 counterexample: a connection arriving at the full room
whose first message names the existing player alice receives no status
message at all — in particular nothing TooManyPlayers-coded — and the
interaction continues as a forwarding session bound to bob. -/
theorem fullRoomRelayCex :
    (handleRequest demoRoom2 { player := "alice" }).2 =
      ConnOutcome.relay "alice" (some bobPlayer) ∧
    connectPhaseSends (handleRequest demoRoom2 { player := "alice" }).2 = [] :=
  ⟨rfl, rfl⟩

/-- Claim C4 (amended): a connection arriving while the room holds 2
players never receives a TooManyPlayers status (that reply exists only
in the earlier main.go variant; toManyPlayers is dead code in the
current server).  Its first message is decoded as a relay binding: a
recognized identity starts runFSM in forwarding mode bound to the other
occupant with no status message sent; an unrecognized identity or an
unreadable message closes the connection silently; the room is
unchanged in every case. -/
theorem fullRoomRelay (room : Room) (m : rawMsg) (p : Player)
    (h2 : room.length = 2) :
    connectPhaseSends (handleRequest room m).2 = [] ∧
    (handleRequest room m).1 = room ∧
    (m.readOk = true → m.jsonOk = true →
       mapLookup room m.player = some p →
       (handleRequest room m).2 =
         ConnOutcome.relay m.player (findOther room m.player)) ∧
    (m.readOk = true → m.jsonOk = true →
       mapLookup room m.player = none →
       (handleRequest room m).2 = ConnOutcome.closedNoMessage) := by
  refine ⟨?_, handleRequest_full_room room m h2, ?_, ?_⟩
  · obtain ⟨ro, jo, nm, pl, ch⟩ := m
    unfold handleRequest
    rw [if_pos h2]
    cases ro <;> cases jo <;> try rfl
    cases hl : mapLookup room pl <;> simp [hl, connectPhaseSends]
  · intro hro hjo hl
    unfold handleRequest
    rw [if_pos h2]
    simp [hro, hjo, hl]
  · intro hro hjo hl
    unfold handleRequest
    rw [if_pos h2]
    simp [hro, hjo, hl]

/-- Witness for fullRoomRelay: the full demo room with a recognized
binding and with an unknown one. -/
theorem fullRoomRelayWitness :
    demoRoom2.length = 2 ∧
    (handleRequest demoRoom2 { player := "bob" }).2 =
      ConnOutcome.relay "bob" (findOther demoRoom2 "bob") ∧
    (handleRequest demoRoom2 { player := "carol" }).2 =
      ConnOutcome.closedNoMessage :=
  ⟨by decide,
   (fullRoomRelay demoRoom2 { player := "bob" } bobPlayer
      (by decide)).2.2.1 rfl rfl (by decide),
   (fullRoomRelay demoRoom2 { player := "carol" } bobPlayer
      (by decide)).2.2.2 rfl rfl (by decide)⟩

/-- Claim C5: admitting two players with distinct names into the empty
room assigns left = true to the first and left = false to the second,
both in the stored record and in the connect response sent back. -/
theorem hostAssignment (a b : String) (ca cb : Character) (h : a ≠ b) :
    ((admitPlayer [] a ca).2.left = true) ∧
    (mapLookup (admitPlayer [] a ca).1 a =
      some { name := a, character := ca, left := true, keys := [],
             state := stateSelect }) ∧
    ((admitPlayer (admitPlayer [] a ca).1 b cb).2.left = false) ∧
    (mapLookup (admitPlayer (admitPlayer [] a ca).1 b cb).1 b =
      some { name := b, character := cb, left := false, keys := [],
             state := stateSelect }) := by
  refine ⟨rfl, ?_, ?_, ?_⟩ <;>
    simp [admitPlayer, mapInsert, mapUpdate, mapLookup, newPlayer, h]

/-- Witness for hostAssignment at alice and bob. -/
theorem hostAssignmentWitness :
    ("alice" ≠ "bob") ∧
    (admitPlayer [] "alice" 0).2.left = true ∧
    (admitPlayer (admitPlayer [] "alice" 0).1 "bob" 0).2.left = false :=
  ⟨by decide, (hostAssignment "alice" "bob" 0 0 (by decide)).1,
   (hostAssignment "alice" "bob" 0 0 (by decide)).2.2.1⟩

/-- Claim C6: a Waiting-state poll is answered notReady while the room
has fewer than 2 players or the opponent's character is 0; once both
conditions hold, the poll is answered with the opponent's name and
character under a Success code and the session moves to statePlay. -/
theorem waitingPoll (room : Room) (p : Player) (other : Player)
    (hfind : findOther room p.name = some other) :
    (room.length < 2 → waitStep room p true true = (p, WaitResponse.notReady)) ∧
    (¬ room.length < 2 → other.character = 0 →
       waitStep room p true true = (p, WaitResponse.notReady)) ∧
    (¬ room.length < 2 → other.character ≠ 0 →
       waitStep room p true true =
         ({ p with state := statePlay },
          WaitResponse.opponent other.name
            (characterString other.character) ESuccess)) := by
  refine ⟨?_, ?_, ?_⟩ <;> intro hlen
  · unfold waitStep
    simp [hlen]
  · intro hc
    unfold waitStep
    simp [hlen, hfind, hc]
  · intro hc
    unfold waitStep
    simp [hlen, hfind, hc]

/-- Witness for waitingPoll: in the full demo room alice's poll returns
bob's identity and character and alice transitions to statePlay. -/
theorem waitingPollWitness :
    findOther demoRoom2 alicePlayer.name = some bobPlayer ∧
    ¬ demoRoom2.length < 2 ∧
    bobPlayer.character ≠ 0 ∧
    waitStep demoRoom2 alicePlayer true true =
      ({ alicePlayer with state := statePlay },
       WaitResponse.opponent "bob" "drax" ESuccess) :=
  ⟨rfl, by decide, by decide,
   (waitingPoll demoRoom2 alicePlayer bobPlayer rfl).2.2
     (by decide) (by decide)⟩

/-- Claim C8 counterexample: a full-room connection naming an unknown
identity is closed with no message written to the client — the NotFound
error is only logged to stderr — refuting the claim that every error
reported on a connection is preceded by a status message. -/
theorem notFoundClosesSilently :
    (handleRequest demoRoom2 { player := "carol" }).2 =
      ConnOutcome.closedNoMessage ∧
    connectPhaseSends (handleRequest demoRoom2 { player := "carol" }).2 = [] :=
  ⟨rfl, rfl⟩

/-- Claim C8 (amended): selection errors are reported to the client as
an ESelect status message, but the connect-phase error exits — a failed
or unparseable first read, and a relay binding naming an unknown
identity — close the connection with no message written. -/
theorem errorMessaging (room : Room) (m : rawMsg) (p : Player)
    (c e : String) (h2 : room.length = 2)
    (herr : getPlayerCharSelect c = Except.error e) :
    (m.readOk = false → (handleRequest room m).2 = ConnOutcome.closedNoMessage) ∧
    (m.readOk = true → m.jsonOk = true → mapLookup room m.player = none →
       (handleRequest room m).2 = ConnOutcome.closedNoMessage) ∧
    connectPhaseSends ConnOutcome.closedNoMessage = [] ∧
    (selectStep p c).2 = [{ status := e, code := ESelect }, successMsg] := by
  refine ⟨?_, ?_, rfl, ?_⟩
  · intro hr
    unfold handleRequest
    rw [if_pos h2]
    simp [hr]
  · intro hr hj hl
    unfold handleRequest
    rw [if_pos h2]
    simp [hr, hj, hl]
  · unfold selectStep
    rw [herr]

/-- Witness for errorMessaging: the unknown-identity silent close and
the reported empty-character selection error. -/
theorem errorMessagingWitness :
    demoRoom2.length = 2 ∧
    getPlayerCharSelect "" = Except.error "Empty character name" ∧
    (handleRequest demoRoom2 { player := "carol" }).2 =
      ConnOutcome.closedNoMessage ∧
    (selectStep bobUnselected "").2 =
      [{ status := "Empty character name", code := ESelect }, successMsg] :=
  ⟨by decide, rfl,
   (errorMessaging demoRoom2 { player := "carol" } bobUnselected ""
      "Empty character name" (by decide) rfl).2.1 rfl rfl (by decide),
   (errorMessaging demoRoom2 { player := "carol" } bobUnselected ""
      "Empty character name" (by decide) rfl).2.2.2⟩

/-- Claim C9 counterexample: the admission path of handleRequest
performs socket I/O — the connect-message read and the connect-response
write — while the Room lock is held. -/
theorem lockAcrossIOCex : ioUnderLock admitTrace = true := rfl

/-- Claim C9 (amended): the relay-binding path and a not-ready poll
confine the lock to map accesses, but the admission path holds the lock
across the connect read and the connect-response write, the ready poll
holds it across the opponent-info write, and a failed connect read
returns while still holding the lock (depth 1 at exit), wedging the
room for every later connection. -/
theorem lockDiscipline :
    ioUnderLock admitTrace = true ∧
    ioUnderLock waitReadyTrace = true ∧
    ioUnderLock fullRoomTrace = false ∧
    ioUnderLock waitNotReadyTrace = false ∧
    lockDepthAfter admitFailTrace = 1 :=
  ⟨rfl, rfl, rfl, rfl, rfl⟩

end UbtServer
